import Mathlib

/-!
# Verification of the coding-assistant orchestration loop

Shallow embedding of `src/Week3/coding_assistant.py`: the message
serializer, the credential resolution, the per-turn orchestration
(first completion, tool dispatch, second completion, evaluation) and
the `get_current_datetime` tool.  Python dictionaries are modelled as
association lists of string keys and `PyVal` values; external effects
(API responses, tool-body outcomes, the clock) are explicit parameters.
-/

/-- A Python value as it occurs in the message records of the source:
`None`, a string, a list, or a nested dictionary. -/
inductive PyVal where
  | vnone : PyVal
  | vstr : String → PyVal
  | vlist : List PyVal → PyVal
  | vdict : List (String × PyVal) → PyVal

/-- A Python dictionary with string keys, in insertion order. -/
abbrev Msg := List (String × PyVal)

/-- Model of `d.get(k)`: the value at `k`, or `None` when absent. -/
def dictGet (d : Msg) (k : String) : PyVal :=
  (List.lookup k d).getD PyVal.vnone

/-- Model of `k in d`. -/
def hasKey (d : Msg) (k : String) : Bool :=
  (List.lookup k d).isSome

/-- A message representation handed to `serialize_message`: either an
API-native object (one with `model_dump`; the payload is the dictionary
`model_dump(exclude_unset=True)` returns) or a plain dictionary. -/
inductive MessageRepr where
  | obj : Msg → MessageRepr
  | dict : Msg → MessageRepr

/-- Embedding of `serialize_message` (lines 29-54 of the source).  The
object branch keeps `role`, `content` and, when the key is present,
`tool_calls`; the dictionary branch additionally keeps `tool_call_id`
and `name` when present.  Key insertion order follows the source. -/
def serialize_message : MessageRepr → Msg
  | .obj msg_dict =>
      [("role", dictGet msg_dict "role"), ("content", dictGet msg_dict "content")]
      ++ (if hasKey msg_dict "tool_calls" then [("tool_calls", dictGet msg_dict "tool_calls")] else [])
  | .dict message =>
      [("role", dictGet message "role"), ("content", dictGet message "content")]
      ++ (if hasKey message "tool_calls" then [("tool_calls", dictGet message "tool_calls")] else [])
      ++ (if hasKey message "tool_call_id" then [("tool_call_id", dictGet message "tool_call_id")] else [])
      ++ (if hasKey message "name" then [("name", dictGet message "name")] else [])

/-- The field set the serializer is allowed to emit. -/
def allowedKeys : List String :=
  ["role", "content", "tool_calls", "tool_call_id", "name"]

/-- Python truthiness of an optional string: `None` and the empty
string are falsy. -/
def pyStrFalsy : Option String → Bool
  | none => true
  | some s => s == ""

/-- Embedding of `get_groq_client` (lines 13-23): `envKey` is
`os.environ.get("GROQ_API_KEY")`, `sessionKey` is
`st.session_state.groq_api_key` when that key exists in the session
state.  The result is the key the `Groq` client is constructed with,
or `none` when the function warns and returns `None`. -/
def get_groq_client (envKey sessionKey : Option String) : Option String :=
  let apiKey := envKey
  let apiKey := if pyStrFalsy apiKey && sessionKey.isSome then sessionKey else apiKey
  if pyStrFalsy apiKey then none else apiKey

/-- A tool-call request issued by the model: `tool_call.id` and the
`function.name` / `function.arguments` pair. -/
structure ToolCallReq where
  id : String
  function_name : String
  arguments : String

/-- The dictionary shape of a tool call inside a dumped response
message. -/
def encodeToolCall (tc : ToolCallReq) : PyVal :=
  .vdict [("id", .vstr tc.id), ("type", .vstr "function"),
    ("function", .vdict [("name", .vstr tc.function_name), ("arguments", .vstr tc.arguments)])]

/-- A response message as returned by
`client.chat.completions.create(...).choices[0].message`: role,
optional content, and optionally-set tool calls. -/
structure RespMessage where
  role : String
  content : Option String
  tool_calls : Option (List ToolCallReq)

/-- Optional string as a Python value. -/
def optStrVal : Option String → PyVal
  | none => .vnone
  | some s => .vstr s

/-- The dictionary `response_message.model_dump(exclude_unset=True)`
produces: `role`, `content`, and `tool_calls` exactly when that field
is set. -/
def respDump (rm : RespMessage) : Msg :=
  [("role", .vstr rm.role), ("content", optStrVal rm.content)]
  ++ (match rm.tool_calls with
      | some l => [("tool_calls", .vlist (l.map encodeToolCall))]
      | none => [])

/-- Python truthiness of `response_message.tool_calls`: a non-empty
list. -/
def toolCallsTruthy : Option (List ToolCallReq) → Bool
  | some (_ :: _) => true
  | _ => false

/-- Python truthiness of a message `content`: a non-empty string. -/
def contentTruthy : Option String → Bool
  | none => false
  | some s => !(s == "")

/-- Outcome of running a registered tool body: its return value, or the
exception it raised (as the exception text). -/
inductive ToolOutcome where
  | ok : String → ToolOutcome
  | exn : String → ToolOutcome

/-- Outcome of the evaluator's API call: the returned content, or the
exception it raised (as the exception text). -/
inductive EvalOutcome where
  | ok : String → EvalOutcome
  | exn : String → EvalOutcome

/-- The external effects one user turn can observe: the first
completion's message (`none` when the call raised), the outcome of each
tool body, the second completion's message, and the evaluator call's
outcome. -/
structure TurnEnv where
  firstResp : Option RespMessage
  toolRun : ToolCallReq → ToolOutcome
  secondResp : Option RespMessage
  evalOutcome : EvalOutcome

/-- The registered tool names (`available_tools`, line 181). -/
def available_tools : List String :=
  ["get_current_datetime"]

/-- Embedding of `evaluate_response` (lines 97-122): the evaluator's
content on success, and the string `"Evaluation failed: ..."` — never a
raised exception — on failure. -/
def evaluate_response : EvalOutcome → String
  | .ok s => s
  | .exn e => "Evaluation failed: " ++ e

/-- The user message appended at line 223. -/
def mkUserMsg (prompt : String) : Msg :=
  [("role", .vstr "user"), ("content", .vstr prompt)]

/-- The tool message built by the dispatch loop (lines 258-270). -/
def mkToolMsg (tc : ToolCallReq) (content : String) : Msg :=
  [("tool_call_id", .vstr tc.id), ("role", .vstr "tool"),
    ("name", .vstr tc.function_name), ("content", .vstr content)]

/-- The content the dispatch loop stores: the tool's return value, or
`"Error: ..."` when the body raised (lines 256-270). -/
def toolResultContent : ToolOutcome → String
  | .ok s => s
  | .exn e => "Error: " ++ e

/-- One iteration of the dispatch loop (lines 250-272): a registered
tool yields one tool message; an unregistered name appends nothing. -/
def dispatchToolCall (env : TurnEnv) (tc : ToolCallReq) : List Msg :=
  if tc.function_name ∈ available_tools then
    [mkToolMsg tc (toolResultContent (env.toolRun tc))]
  else []

/-- The final assistant record (lines 286-288 or 295-297) after the
evaluation field is attached at line 309. -/
def mkFinalAssistant (content evalText : String) : Msg :=
  [("role", .vstr "assistant"), ("content", .vstr content), ("evaluation", .vstr evalText)]

/-- Result of one user turn: the message store, whether the second
completion was requested, the value of `full_response_content`, and the
appended final assistant record if any. -/
structure TurnResult where
  store : List Msg
  secondCallMade : Bool
  fullResponseContent : String
  finalMsg : Option Msg

/-- Evaluation and final append (lines 300-315), reached with a truthy
`full_response_content`. -/
def appendFinal (s : List Msg) (second : Bool) (c : String) (env : TurnEnv) : TurnResult :=
  let final := mkFinalAssistant c (evaluate_response env.evalOutcome)
  ⟨s ++ [final], second, c, some final⟩

/-- The direct-reply branch (lines 290-298). -/
def directBranch (s1 : List Msg) (rm : RespMessage) (env : TurnEnv) : TurnResult :=
  if contentTruthy rm.content then appendFinal s1 false (rm.content.getD "") env
  else ⟨s1, false, "", none⟩

/-- The tool branch (lines 244-289): append the serialized tool-calls
message, dispatch each requested call, then request the second
completion and append the final reply when its content is truthy. -/
def toolBranch (s1 : List Msg) (rm : RespMessage) (l : List ToolCallReq) (env : TurnEnv) : TurnResult :=
  let s2 := s1 ++ [serialize_message (.obj (respDump rm))]
  let s3 := s2 ++ l.flatMap (dispatchToolCall env)
  match env.secondResp with
  | none => ⟨s3, true, "", none⟩
  | some fr =>
      if contentTruthy fr.content then appendFinal s3 true (fr.content.getD "") env
      else ⟨s3, true, "", none⟩

/-- Embedding of the user-input handler (lines 222-315) for one turn:
append the user message, call the driver, and follow either the tool
branch or the direct-reply branch. -/
def runTurn (pre : List Msg) (prompt : String) (env : TurnEnv) : TurnResult :=
  let s1 := pre ++ [mkUserMsg prompt]
  match env.firstResp with
  | none => ⟨s1, false, "", none⟩
  | some rm =>
      if toolCallsTruthy rm.tool_calls then toolBranch s1 rm (rm.tool_calls.getD []) env
      else directBranch s1 rm env

/-- The guard at lines 217-220: with no client the handler stops before
appending anything; otherwise the turn runs. -/
def handleUserInput (client : Option String) (pre : List Msg) (prompt : String)
    (env : TurnEnv) : List Msg :=
  match client with
  | none => pre
  | some _ => (runTurn pre prompt env).store

/-- The decimal digit character for values below ten (formatting model
for `%0Nd` padding). -/
def digitChar : Nat → Char
  | 0 => '0'
  | 1 => '1'
  | 2 => '2'
  | 3 => '3'
  | 4 => '4'
  | 5 => '5'
  | 6 => '6'
  | 7 => '7'
  | 8 => '8'
  | 9 => '9'
  | _ => '*'

/-- The fields of a Python `datetime` value. -/
structure PyDateTime where
  year : Nat
  month : Nat
  day : Nat
  hour : Nat
  minute : Nat
  second : Nat
  microsecond : Nat

/-- The field ranges Python's `datetime` guarantees (so any value
`datetime.now()` can return). -/
def validPyDateTime (t : PyDateTime) : Prop :=
  1 ≤ t.year ∧ t.year ≤ 9999 ∧ 1 ≤ t.month ∧ t.month ≤ 12 ∧ 1 ≤ t.day ∧ t.day ≤ 31
  ∧ t.hour ≤ 23 ∧ t.minute ≤ 59 ∧ t.second ≤ 59 ∧ t.microsecond ≤ 999999

instance (t : PyDateTime) : Decidable (validPyDateTime t) := by
  unfold validPyDateTime
  infer_instance

/-- The character sequence of `datetime.isoformat()`:
`YYYY-MM-DDTHH:MM:SS`, with `.ffffff` appended exactly when the
microsecond field is non-zero. -/
def isoChars (t : PyDateTime) : List Char :=
  [digitChar (t.year / 1000), digitChar (t.year / 100 % 10), digitChar (t.year / 10 % 10),
    digitChar (t.year % 10), '-', digitChar (t.month / 10), digitChar (t.month % 10), '-',
    digitChar (t.day / 10), digitChar (t.day % 10), 'T',
    digitChar (t.hour / 10), digitChar (t.hour % 10), ':',
    digitChar (t.minute / 10), digitChar (t.minute % 10), ':',
    digitChar (t.second / 10), digitChar (t.second % 10)]
  ++ (if t.microsecond = 0 then []
      else '.' :: [digitChar (t.microsecond / 100000), digitChar (t.microsecond / 10000 % 10),
        digitChar (t.microsecond / 1000 % 10), digitChar (t.microsecond / 100 % 10),
        digitChar (t.microsecond / 10 % 10), digitChar (t.microsecond % 10)])

/-- Model of `datetime.isoformat()`. -/
def isoformat (t : PyDateTime) : String :=
  String.mk (isoChars t)

/-- Lower-case hexadecimal digit for values below sixteen. -/
def hexDigitChar : Nat → Char
  | 10 => 'a'
  | 11 => 'b'
  | 12 => 'c'
  | 13 => 'd'
  | 14 => 'e'
  | 15 => 'f'
  | m => digitChar m

/-- JSON string escaping as `json.dumps` performs it with its defaults
(`ensure_ascii=True`; exact for code points below 0x10000). -/
def jsonEscapeChar (c : Char) : List Char :=
  if c = '\x22' then ['\\', '\x22']
  else if c = '\\' then ['\\', '\\']
  else if c = '\x08' then ['\\', 'b']
  else if c = '\x0c' then ['\\', 'f']
  else if c = '\n' then ['\\', 'n']
  else if c = '\r' then ['\\', 'r']
  else if c = '\t' then ['\\', 't']
  else if c.toNat < 32 ∨ 128 ≤ c.toNat then
    ['\\', 'u', hexDigitChar (c.toNat / 4096 % 16), hexDigitChar (c.toNat / 256 % 16),
      hexDigitChar (c.toNat / 16 % 16), hexDigitChar (c.toNat % 16)]
  else [c]

/-- Escape every character of a string body. -/
def jsonEscapeList (l : List Char) : List Char :=
  l.flatMap jsonEscapeChar

/-- Model of `json.dumps` restricted to the one shape the source builds
(line 27): an object with a single string key and string value, default
separators. -/
def json_dumps_strObj (k v : String) : String :=
  String.mk (('\x7b' :: '\x22' :: jsonEscapeList k.toList)
    ++ ('\x22' :: ':' :: ' ' :: '\x22' :: jsonEscapeList v.toList) ++ ['\x22', '\x7d'])

/-- Embedding of `get_current_datetime` (lines 25-27), with the reading
of `datetime.now()` passed explicitly. -/
def get_current_datetime (now : PyDateTime) : String :=
  json_dumps_strObj "current_datetime" (isoformat now)

/-- Characters before the first double quote, and the remainder after
it. -/
def takeUntilQuote : List Char → Option (List Char × List Char)
  | [] => none
  | c :: rest =>
      if c = '\x22' then some ([], rest)
      else
        match takeUntilQuote rest with
        | some (tk, rem) => some (c :: tk, rem)
        | none => none

/-- Parse a JSON object holding exactly one string-valued key (escape
sequences not required for the strings the source produces): the key
and value character lists. -/
def parseJsonObjChars : List Char → Option (List Char × List Char)
  | c0 :: c1 :: rest =>
      if c0 = '\x7b' ∧ c1 = '\x22' then
        match takeUntilQuote rest with
        | some (key, c2 :: c3 :: c4 :: rest2) =>
            if c2 = ':' ∧ c3 = ' ' ∧ c4 = '\x22' then
              match takeUntilQuote rest2 with
              | some (v, [c5]) => if c5 = '\x7d' then some (key, v) else none
              | _ => none
            else none
        | _ => none
      else none
  | _ => none

/-- String-level single-key JSON object parse. -/
def parseJsonStrObj (s : String) : Option (String × String) :=
  (parseJsonObjChars s.toList).map (fun kv => (String.mk kv.1, String.mk kv.2))

/-- Decimal value of a digit character. -/
def charVal (c : Char) : Nat :=
  c.toNat - 48

/-- Field-wise check of a `YYYY-MM-DDTHH:MM:SS` core: digits in digit
positions, the right separators, and in-range date and time values. -/
def isoCoreOk (y1 y2 y3 y4 sA mo1 mo2 sB d1 d2 sT hh1 hh2 sC mi1 mi2 sD ss1 ss2 : Char) : Bool :=
  y1.isDigit && y2.isDigit && y3.isDigit && y4.isDigit
  && (sA == '-') && mo1.isDigit && mo2.isDigit && (sB == '-') && d1.isDigit && d2.isDigit
  && (sT == 'T') && hh1.isDigit && hh2.isDigit && (sC == ':') && mi1.isDigit && mi2.isDigit
  && (sD == ':') && ss1.isDigit && ss2.isDigit
  && decide (1 ≤ 1000 * charVal y1 + 100 * charVal y2 + 10 * charVal y3 + charVal y4)
  && decide (1 ≤ 10 * charVal mo1 + charVal mo2) && decide (10 * charVal mo1 + charVal mo2 ≤ 12)
  && decide (1 ≤ 10 * charVal d1 + charVal d2) && decide (10 * charVal d1 + charVal d2 ≤ 31)
  && decide (10 * charVal hh1 + charVal hh2 ≤ 23)
  && decide (10 * charVal mi1 + charVal mi2 ≤ 59)
  && decide (10 * charVal ss1 + charVal ss2 ≤ 59)

/-- Recognizer for valid ISO-8601 timestamps in the two shapes
`datetime.isoformat()` emits: with or without a six-digit fractional
second part. -/
def isValidISO8601 (s : String) : Bool :=
  match s.toList with
  | [y1, y2, y3, y4, sA, mo1, mo2, sB, d1, d2, sT, hh1, hh2, sC, mi1, mi2, sD, ss1, ss2] =>
      isoCoreOk y1 y2 y3 y4 sA mo1 mo2 sB d1 d2 sT hh1 hh2 sC mi1 mi2 sD ss1 ss2
  | [y1, y2, y3, y4, sA, mo1, mo2, sB, d1, d2, sT, hh1, hh2, sC, mi1, mi2, sD, ss1, ss2,
      dot, f1, f2, f3, f4, f5, f6] =>
      isoCoreOk y1 y2 y3 y4 sA mo1 mo2 sB d1 d2 sT hh1 hh2 sC mi1 mi2 sD ss1 ss2
      && (dot == '.') && f1.isDigit && f2.isDigit && f3.isDigit && f4.isDigit
      && f5.isDigit && f6.isDigit
  | _ => false

/-- C1: serialize_message is idempotent — re-serializing the record it
produces (necessarily a plain dictionary) yields the same record. -/
theorem C1_serialize_message_idempotent (m : MessageRepr) :
    serialize_message (.dict (serialize_message m)) = serialize_message m := by
  cases m with
  | obj d =>
      by_cases h : hasKey d "tool_calls"
      · have hs : serialize_message (.obj d) =
            [("role", dictGet d "role"), ("content", dictGet d "content"),
              ("tool_calls", dictGet d "tool_calls")] := by
          simp [serialize_message, h]
        rw [hs]; rfl
      · have hs : serialize_message (.obj d) =
            [("role", dictGet d "role"), ("content", dictGet d "content")] := by
          simp [serialize_message, h]
        rw [hs]; rfl
  | dict d =>
      by_cases h1 : hasKey d "tool_calls" <;>
        by_cases h2 : hasKey d "tool_call_id" <;>
          by_cases h3 : hasKey d "name" <;>
            · rw [show serialize_message (.dict d) =
                  [("role", dictGet d "role"), ("content", dictGet d "content")]
                  ++ (if hasKey d "tool_calls" then [("tool_calls", dictGet d "tool_calls")] else [])
                  ++ (if hasKey d "tool_call_id" then [("tool_call_id", dictGet d "tool_call_id")] else [])
                  ++ (if hasKey d "name" then [("name", dictGet d "name")] else []) from rfl]
              simp [h1, h2, h3]
              rfl

/-- C3: every key of the record produced by serialize_message lies in
the set of allowed fields. -/
theorem C3_serialize_message_projection (m : MessageRepr) (kv : String × PyVal)
    (hkv : kv ∈ serialize_message m) : kv.1 ∈ allowedKeys := by
  cases m with
  | obj d =>
      by_cases h : hasKey d "tool_calls" <;>
        simp [serialize_message, h] at hkv <;>
          rcases hkv with rfl | rfl | rfl <;> simp [allowedKeys]
  | dict d =>
      by_cases h1 : hasKey d "tool_calls" <;>
        by_cases h2 : hasKey d "tool_call_id" <;>
          by_cases h3 : hasKey d "name" <;>
            simp [serialize_message, h1, h2, h3] at hkv <;>
              rcases hkv with rfl | rfl | rfl | rfl | rfl <;> simp [allowedKeys]

/-- C2 as stated is false: the object branch of serialize_message drops
`tool_call_id` and `name` even when the input carries them.  Concrete
input: an API-native object whose dump holds all five fields. -/
theorem C2_counterexample :
    hasKey (serialize_message (.obj [("role", PyVal.vstr "tool"), ("content", PyVal.vstr "x"),
      ("tool_call_id", PyVal.vstr "call_1"), ("name", PyVal.vstr "get_current_datetime")])) "name" = false
    ∧ hasKey (serialize_message (.obj [("role", PyVal.vstr "tool"), ("content", PyVal.vstr "x"),
      ("tool_call_id", PyVal.vstr "call_1"), ("name", PyVal.vstr "get_current_datetime")])) "tool_call_id" = false
    ∧ hasKey [("role", PyVal.vstr "tool"), ("content", PyVal.vstr "x"),
      ("tool_call_id", PyVal.vstr "call_1"), ("name", PyVal.vstr "get_current_datetime")] "name" = true := by
  exact ⟨rfl, rfl, rfl⟩

/-- C2 amended: for plain records the serializer keeps `role`, `content`
and exactly those of `tool_calls`, `tool_call_id`, `name` present in the
input, with their values; for API-native objects it keeps `role`,
`content` and `tool_calls` when present, and always drops
`tool_call_id` and `name`.  Missing optional fields are omitted and the
function is total (it never fails). -/
theorem C2_serialize_message_retention :
    (∀ d : Msg,
      dictGet (serialize_message (.dict d)) "role" = dictGet d "role"
      ∧ dictGet (serialize_message (.dict d)) "content" = dictGet d "content"
      ∧ hasKey (serialize_message (.dict d)) "tool_calls" = hasKey d "tool_calls"
      ∧ hasKey (serialize_message (.dict d)) "tool_call_id" = hasKey d "tool_call_id"
      ∧ hasKey (serialize_message (.dict d)) "name" = hasKey d "name"
      ∧ (hasKey d "tool_calls" = true →
          dictGet (serialize_message (.dict d)) "tool_calls" = dictGet d "tool_calls")
      ∧ (hasKey d "tool_call_id" = true →
          dictGet (serialize_message (.dict d)) "tool_call_id" = dictGet d "tool_call_id")
      ∧ (hasKey d "name" = true →
          dictGet (serialize_message (.dict d)) "name" = dictGet d "name"))
    ∧ (∀ o : Msg,
      dictGet (serialize_message (.obj o)) "role" = dictGet o "role"
      ∧ dictGet (serialize_message (.obj o)) "content" = dictGet o "content"
      ∧ hasKey (serialize_message (.obj o)) "tool_calls" = hasKey o "tool_calls"
      ∧ (hasKey o "tool_calls" = true →
          dictGet (serialize_message (.obj o)) "tool_calls" = dictGet o "tool_calls")
      ∧ hasKey (serialize_message (.obj o)) "tool_call_id" = false
      ∧ hasKey (serialize_message (.obj o)) "name" = false) := by
  constructor
  · intro d
    by_cases h1 : hasKey d "tool_calls" <;>
      by_cases h2 : hasKey d "tool_call_id" <;>
        by_cases h3 : hasKey d "name" <;>
          · rw [show serialize_message (.dict d) =
                [("role", dictGet d "role"), ("content", dictGet d "content")]
                ++ (if hasKey d "tool_calls" then [("tool_calls", dictGet d "tool_calls")] else [])
                ++ (if hasKey d "tool_call_id" then [("tool_call_id", dictGet d "tool_call_id")] else [])
                ++ (if hasKey d "name" then [("name", dictGet d "name")] else []) from rfl]
            simp only [h1, h2, h3, if_true, if_false]
            refine ⟨rfl, rfl, ?_, ?_, ?_, ?_, ?_, ?_⟩ <;>
              simp_all [dictGet, hasKey, List.lookup]
  · intro o
    by_cases h1 : hasKey o "tool_calls" <;>
      · rw [show serialize_message (.obj o) =
            [("role", dictGet o "role"), ("content", dictGet o "content")]
            ++ (if hasKey o "tool_calls" then [("tool_calls", dictGet o "tool_calls")] else []) from rfl]
        simp only [h1, if_true, if_false]
        refine ⟨rfl, rfl, ?_, ?_, ?_, ?_⟩ <;>
          simp_all [dictGet, hasKey, List.lookup]

/-- C2 witness: the amended retention theorem evaluated on a concrete
tool message: a `tool_call_id` present in a plain record reappears in
the serialized record with the same value. -/
theorem C2_serialize_message_retention_witness :
    hasKey [("role", PyVal.vstr "tool"), ("content", PyVal.vstr "x"),
      ("tool_call_id", PyVal.vstr "call_1"), ("name", PyVal.vstr "get_current_datetime")] "tool_call_id" = true
    ∧ dictGet (serialize_message (.dict [("role", PyVal.vstr "tool"), ("content", PyVal.vstr "x"),
        ("tool_call_id", PyVal.vstr "call_1"), ("name", PyVal.vstr "get_current_datetime")])) "tool_call_id"
      = dictGet [("role", PyVal.vstr "tool"), ("content", PyVal.vstr "x"),
        ("tool_call_id", PyVal.vstr "call_1"), ("name", PyVal.vstr "get_current_datetime")] "tool_call_id" :=
  ⟨rfl, (C2_serialize_message_retention.1 [("role", PyVal.vstr "tool"), ("content", PyVal.vstr "x"),
    ("tool_call_id", PyVal.vstr "call_1"), ("name", PyVal.vstr "get_current_datetime")]).2.2.2.2.2.2.1 rfl⟩

/-- C3 witness: the projection theorem evaluated on a concrete tool
message and its first output field. -/
theorem C3_serialize_message_projection_witness :
    ("role", PyVal.vstr "tool") ∈ serialize_message (.dict [("role", PyVal.vstr "tool"),
      ("content", PyVal.vstr "x"), ("name", PyVal.vstr "get_current_datetime")])
    ∧ ("role", PyVal.vstr "tool").1 ∈ allowedKeys := by
  refine ⟨?_, ?_⟩
  · show ("role", PyVal.vstr "tool") ∈ serialize_message (.dict [("role", PyVal.vstr "tool"),
      ("content", PyVal.vstr "x"), ("name", PyVal.vstr "get_current_datetime")])
    simp [serialize_message, hasKey, dictGet, List.lookup]
  · exact C3_serialize_message_projection (.dict [("role", PyVal.vstr "tool"),
      ("content", PyVal.vstr "x"), ("name", PyVal.vstr "get_current_datetime")]) ("role", PyVal.vstr "tool")
      (by simp [serialize_message, hasKey, dictGet, List.lookup])

/-- A string with a non-empty left part is non-empty. -/
theorem append_ne_empty_left (s t : String) (h : s.length ≠ 0) : s ++ t ≠ "" := by
  intro hc
  have hl := congrArg String.length hc
  rw [String.length_append] at hl
  simp at hl
  exact h hl.1

/-- The tool branch always requests the second completion. -/
theorem toolBranch_secondCallMade (s1 : List Msg) (rm : RespMessage)
    (l : List ToolCallReq) (env : TurnEnv) :
    (toolBranch s1 rm l env).secondCallMade = true := by
  cases hsec : env.secondResp with
  | none => simp [toolBranch, hsec]
  | some fr =>
      by_cases hct : contentTruthy fr.content <;>
        simp [toolBranch, hsec, hct, appendFinal]

/-- The messages committed before the second completion stay in the
store whatever the second completion does. -/
theorem toolBranch_store_prefix (s1 : List Msg) (rm : RespMessage)
    (l : List ToolCallReq) (env : TurnEnv) :
    ∃ tail, (toolBranch s1 rm l env).store =
      (s1 ++ [serialize_message (.obj (respDump rm))] ++ l.flatMap (dispatchToolCall env)) ++ tail := by
  cases hsec : env.secondResp with
  | none => exact ⟨[], by simp [toolBranch, hsec]⟩
  | some fr =>
      by_cases hct : contentTruthy fr.content
      · exact ⟨[mkFinalAssistant (fr.content.getD "") (evaluate_response env.evalOutcome)],
          by simp [toolBranch, hsec, hct, appendFinal]⟩
      · exact ⟨[], by simp [toolBranch, hsec, hct]⟩

/-- C4: when the first completion call fails, the turn leaves the store
at exactly the prior messages plus the one user message; nothing else is
appended and no second call or final reply occurs. -/
theorem C4_first_call_failure_atomic (pre : List Msg) (prompt : String) (env : TurnEnv)
    (h : env.firstResp = none) :
    (runTurn pre prompt env).store = pre ++ [mkUserMsg prompt]
    ∧ (runTurn pre prompt env).store.length = pre.length + 1
    ∧ (runTurn pre prompt env).finalMsg = none
    ∧ (runTurn pre prompt env).secondCallMade = false := by
  refine ⟨?_, ?_, ?_, ?_⟩ <;> simp [runTurn, h]

/-- C4 witness: the atomicity theorem at a concrete failing turn. -/
theorem C4_first_call_failure_atomic_witness :
    (runTurn ([] : List Msg) "hello" ⟨none, fun _ => .ok "", none, .ok ""⟩).store = ([] : List Msg) ++ [mkUserMsg "hello"]
    ∧ (runTurn ([] : List Msg) "hello" ⟨none, fun _ => .ok "", none, .ok ""⟩).store.length = List.length ([] : List Msg) + 1
    ∧ (runTurn ([] : List Msg) "hello" ⟨none, fun _ => .ok "", none, .ok ""⟩).finalMsg = none
    ∧ (runTurn ([] : List Msg) "hello" ⟨none, fun _ => .ok "", none, .ok ""⟩).secondCallMade = false :=
  C4_first_call_failure_atomic ([] : List Msg) "hello" ⟨none, fun _ => .ok "", none, .ok ""⟩ rfl

/-- C9 as stated is false: with `GROQ_API_KEY` set to the empty string
the key is falsy, so no client is constructed even though the variable
is set, and an interactively supplied value is used although the
variable is not absent. -/
theorem C9_counterexample :
    get_groq_client (some "") none = none
    ∧ get_groq_client (some "") (some "sess-key") = some "sess-key" :=
  ⟨rfl, rfl⟩

/-- C9 amended: a non-empty environment value always wins; the session
value is used exactly when the environment variable is absent or empty;
when neither yields a non-empty key no client is constructed and the
turn handler appends nothing (no API call can start). -/
theorem C9_credential_resolution (e s : String) :
    (e ≠ "" → ∀ sk : Option String, get_groq_client (some e) sk = some e)
    ∧ (s ≠ "" → get_groq_client none (some s) = some s ∧ get_groq_client (some "") (some s) = some s)
    ∧ get_groq_client none none = none
    ∧ get_groq_client (some "") none = none
    ∧ (∀ pre prompt env, handleUserInput none pre prompt env = pre) := by
  refine ⟨?_, ?_, rfl, rfl, fun _ _ _ => rfl⟩
  · intro he sk
    have hb : (e == "") = false := by
      simp [he]
    cases sk <;> simp [get_groq_client, pyStrFalsy, hb]
  · intro hs
    have hb : (s == "") = false := by
      simp [hs]
    exact ⟨by simp [get_groq_client, pyStrFalsy, hb], by simp [get_groq_client, pyStrFalsy, hb]⟩

/-- C9 witness: the amended resolution theorem at concrete keys. -/
theorem C9_credential_resolution_witness :
    get_groq_client (some "gsk_env") (some "gsk_session") = some "gsk_env"
    ∧ get_groq_client none (some "gsk_session") = some "gsk_session" :=
  ⟨(C9_credential_resolution "gsk_env" "gsk_session").1 (by decide) (some "gsk_session"),
    ((C9_credential_resolution "gsk_env" "gsk_session").2.1 (by decide)).1⟩

/-- C5: a tool body that raises is contained — the dispatch loop stores
a tool message whose content is the non-empty error string and whose id
and name match the request, and the turn still requests the second
completion. -/
theorem C5_tool_exception_contained (pre : List Msg) (prompt : String) (env : TurnEnv)
    (rm : RespMessage) (l : List ToolCallReq) (tc : ToolCallReq) (e : String)
    (h1 : env.firstResp = some rm) (h2 : rm.tool_calls = some l) (h3 : tc ∈ l)
    (h4 : tc.function_name ∈ available_tools) (h5 : env.toolRun tc = .exn e) :
    mkToolMsg tc ("Error: " ++ e) ∈ (runTurn pre prompt env).store
    ∧ ("Error: " ++ e) ≠ ""
    ∧ dictGet (mkToolMsg tc ("Error: " ++ e)) "tool_call_id" = .vstr tc.id
    ∧ dictGet (mkToolMsg tc ("Error: " ++ e)) "name" = .vstr tc.function_name
    ∧ (runTurn pre prompt env).secondCallMade = true := by
  obtain ⟨a, as, rfl⟩ : ∃ a as, l = a :: as := by
    cases l with
    | nil => simp at h3
    | cons a as => exact ⟨a, as, rfl⟩
  have hrun : runTurn pre prompt env = toolBranch (pre ++ [mkUserMsg prompt]) rm (a :: as) env := by
    simp [runTurn, h1, h2, toolCallsTruthy]
  obtain ⟨tail, htail⟩ := toolBranch_store_prefix (pre ++ [mkUserMsg prompt]) rm (a :: as) env
  have hmem : mkToolMsg tc ("Error: " ++ e) ∈ (a :: as).flatMap (dispatchToolCall env) := by
    refine List.mem_flatMap.mpr ⟨tc, h3, ?_⟩
    simp [dispatchToolCall, h4, h5, toolResultContent]
  refine ⟨?_, append_ne_empty_left "Error: " e (by decide), rfl, rfl, ?_⟩
  · rw [hrun, htail]
    exact List.mem_append_left _ (List.mem_append_right _ hmem)
  · rw [hrun]
    exact toolBranch_secondCallMade _ _ _ _

/-- C5 witness: the containment theorem on a concrete turn whose only
registered tool raises `boom`. -/
theorem C5_tool_exception_contained_witness :
    mkToolMsg ⟨"call_1", "get_current_datetime", ""⟩ ("Error: " ++ "boom")
        ∈ (runTurn ([] : List Msg) "time?"
            ⟨some ⟨"assistant", none, some [⟨"call_1", "get_current_datetime", ""⟩]⟩,
              fun _ => .exn "boom", none, .ok ""⟩).store
    ∧ ("Error: " ++ "boom") ≠ ""
    ∧ dictGet (mkToolMsg ⟨"call_1", "get_current_datetime", ""⟩ ("Error: " ++ "boom")) "tool_call_id"
        = .vstr "call_1"
    ∧ dictGet (mkToolMsg ⟨"call_1", "get_current_datetime", ""⟩ ("Error: " ++ "boom")) "name"
        = .vstr "get_current_datetime"
    ∧ (runTurn ([] : List Msg) "time?"
        ⟨some ⟨"assistant", none, some [⟨"call_1", "get_current_datetime", ""⟩]⟩,
          fun _ => .exn "boom", none, .ok ""⟩).secondCallMade = true :=
  C5_tool_exception_contained ([] : List Msg) "time?"
    ⟨some ⟨"assistant", none, some [⟨"call_1", "get_current_datetime", ""⟩]⟩,
      fun _ => .exn "boom", none, .ok ""⟩
    ⟨"assistant", none, some [⟨"call_1", "get_current_datetime", ""⟩]⟩
    [⟨"call_1", "get_current_datetime", ""⟩] ⟨"call_1", "get_current_datetime", ""⟩ "boom"
    rfl rfl (List.mem_singleton.mpr rfl) (by decide) rfl

/-- C6: a failed evaluator call never blocks the reply — the evaluation
text is the failure marker string (never a raised exception) and the
assistant message is still appended with its non-empty content. -/
theorem C6_evaluation_failure_contained (pre : List Msg) (prompt : String) (env : TurnEnv)
    (c e : String) (hc : (runTurn pre prompt env).fullResponseContent = c) (hc0 : c ≠ "")
    (he : env.evalOutcome = .exn e) :
    (runTurn pre prompt env).finalMsg = some (mkFinalAssistant c ("Evaluation failed: " ++ e))
    ∧ mkFinalAssistant c ("Evaluation failed: " ++ e) ∈ (runTurn pre prompt env).store
    ∧ dictGet (mkFinalAssistant c ("Evaluation failed: " ++ e)) "content" = .vstr c
    ∧ ("Evaluation failed: " ++ e) ≠ ""
    ∧ evaluate_response env.evalOutcome = "Evaluation failed: " ++ e := by
  have hev : evaluate_response env.evalOutcome = "Evaluation failed: " ++ e := by
    rw [he]
    rfl
  cases hf : env.firstResp with
  | none =>
      exfalso
      apply hc0
      rw [← hc]
      simp [runTurn, hf]
  | some rm =>
      by_cases htc : toolCallsTruthy rm.tool_calls
      · have hrun : runTurn pre prompt env
            = toolBranch (pre ++ [mkUserMsg prompt]) rm (rm.tool_calls.getD []) env := by
          simp [runTurn, hf, htc]
        rw [hrun] at hc ⊢
        cases hsec : env.secondResp with
        | none =>
            exfalso
            apply hc0
            rw [← hc]
            simp [toolBranch, hsec]
        | some fr =>
            by_cases hct : contentTruthy fr.content
            · have hc' : fr.content.getD "" = c := by
                rw [← hc]
                simp [toolBranch, hsec, hct, appendFinal]
              refine ⟨?_, ?_, rfl, append_ne_empty_left "Evaluation failed: " e (by decide), hev⟩ <;>
                simp [toolBranch, hsec, hct, appendFinal, hc', hev]
            · exfalso
              apply hc0
              rw [← hc]
              simp [toolBranch, hsec, hct]
      · have hrun : runTurn pre prompt env = directBranch (pre ++ [mkUserMsg prompt]) rm env := by
          simp [runTurn, hf, htc]
        rw [hrun] at hc ⊢
        by_cases hct : contentTruthy rm.content
        · have hc' : rm.content.getD "" = c := by
            rw [← hc]
            simp [directBranch, hct, appendFinal]
          refine ⟨?_, ?_, rfl, append_ne_empty_left "Evaluation failed: " e (by decide), hev⟩ <;>
            simp [directBranch, hct, appendFinal, hc', hev]
        · exfalso
          apply hc0
          rw [← hc]
          simp [directBranch, hct]

/-- C6 witness: the containment theorem on a concrete direct-reply turn
whose evaluator call raises `api down`. -/
theorem C6_evaluation_failure_contained_witness :
    (runTurn ([] : List Msg) "q"
        ⟨some ⟨"assistant", some "hi", none⟩, fun _ => .ok "", none, .exn "api down"⟩).finalMsg
      = some (mkFinalAssistant "hi" ("Evaluation failed: " ++ "api down"))
    ∧ mkFinalAssistant "hi" ("Evaluation failed: " ++ "api down")
        ∈ (runTurn ([] : List Msg) "q"
            ⟨some ⟨"assistant", some "hi", none⟩, fun _ => .ok "", none, .exn "api down"⟩).store
    ∧ dictGet (mkFinalAssistant "hi" ("Evaluation failed: " ++ "api down")) "content" = .vstr "hi"
    ∧ ("Evaluation failed: " ++ "api down") ≠ ""
    ∧ evaluate_response (TurnEnv.mk (some ⟨"assistant", some "hi", none⟩)
        (fun _ => .ok "") none (.exn "api down")).evalOutcome = "Evaluation failed: " ++ "api down" :=
  C6_evaluation_failure_contained ([] : List Msg) "q"
    ⟨some ⟨"assistant", some "hi", none⟩, fun _ => .ok "", none, .exn "api down"⟩
    "hi" "api down" rfl (by decide) rfl

/-- C8: when a turn aborts without producing a reply (first call
failed, reply content empty, or the second completion after a tool
request failed or came back empty), the messages added to the store
contain no assistant reply entry: every added assistant-role message is
the already-committed tool-calls message, which carries `tool_calls`. -/
theorem C8_abort_no_assistant_reply (pre : List Msg) (prompt : String) (env : TurnEnv)
    (h : (runTurn pre prompt env).finalMsg = none) :
    ∃ suffix, (runTurn pre prompt env).store = pre ++ suffix
      ∧ ∀ m ∈ suffix, dictGet m "role" = PyVal.vstr "assistant" → hasKey m "tool_calls" = true := by
  cases hf : env.firstResp with
  | none =>
      refine ⟨[mkUserMsg prompt], by simp [runTurn, hf], ?_⟩
      intro m hm hrole
      rw [List.mem_singleton.mp hm] at hrole
      simp [mkUserMsg, dictGet, List.lookup] at hrole
  | some rm =>
      by_cases htc : toolCallsTruthy rm.tool_calls
      · obtain ⟨a, as, hl⟩ : ∃ a as, rm.tool_calls = some (a :: as) := by
          cases hto : rm.tool_calls with
          | none => rw [hto] at htc; simp [toolCallsTruthy] at htc
          | some l =>
              cases l with
              | nil => rw [hto] at htc; simp [toolCallsTruthy] at htc
              | cons a as => exact ⟨a, as, rfl⟩
        have hrun : runTurn pre prompt env
            = toolBranch (pre ++ [mkUserMsg prompt]) rm (a :: as) env := by
          simp [runTurn, hf, hl, toolCallsTruthy]
        rw [hrun] at h ⊢
        have hdump : respDump rm = [("role", .vstr rm.role), ("content", optStrVal rm.content),
            ("tool_calls", .vlist ((a :: as).map encodeToolCall))] := by
          simp [respDump, hl]
        have hser : hasKey (serialize_message (.obj (respDump rm))) "tool_calls" = true := by
          rw [show serialize_message (.obj (respDump rm))
              = [("role", dictGet (respDump rm) "role"), ("content", dictGet (respDump rm) "content")]
                ++ (if hasKey (respDump rm) "tool_calls"
                    then [("tool_calls", dictGet (respDump rm) "tool_calls")] else []) from rfl]
          rw [hdump]
          rfl
        have hsuffix : ∀ m ∈ mkUserMsg prompt :: serialize_message (.obj (respDump rm))
              :: (a :: as).flatMap (dispatchToolCall env),
            dictGet m "role" = PyVal.vstr "assistant" → hasKey m "tool_calls" = true := by
          intro m hm hrole
          rcases hm with _ | ⟨_, hm⟩
          · simp [mkUserMsg, dictGet, List.lookup] at hrole
          · rcases hm with _ | ⟨_, hm⟩
            · exact hser
            · obtain ⟨tc, _, hmtc⟩ := List.mem_flatMap.mp hm
              unfold dispatchToolCall at hmtc
              split at hmtc
              · rw [List.mem_singleton.mp hmtc] at hrole
                simp [mkToolMsg, dictGet, List.lookup] at hrole
              · simp at hmtc
        cases hsec : env.secondResp with
        | none =>
            refine ⟨mkUserMsg prompt :: serialize_message (.obj (respDump rm))
                :: (a :: as).flatMap (dispatchToolCall env), by simp [toolBranch, hsec], hsuffix⟩
        | some fr =>
            by_cases hct : contentTruthy fr.content
            · exfalso
              simp [toolBranch, hsec, hct, appendFinal] at h
            · refine ⟨mkUserMsg prompt :: serialize_message (.obj (respDump rm))
                  :: (a :: as).flatMap (dispatchToolCall env), by simp [toolBranch, hsec, hct], hsuffix⟩
      · have hrun : runTurn pre prompt env = directBranch (pre ++ [mkUserMsg prompt]) rm env := by
          simp [runTurn, hf, htc]
        rw [hrun] at h ⊢
        by_cases hct : contentTruthy rm.content
        · exfalso
          simp [directBranch, hct, appendFinal] at h
        · refine ⟨[mkUserMsg prompt], by simp [directBranch, hct], ?_⟩
          intro m hm hrole
          rw [List.mem_singleton.mp hm] at hrole
          simp [mkUserMsg, dictGet, List.lookup] at hrole

/-- C8 witness: the abort theorem on a concrete turn whose second
completion (after a tool request) fails. -/
theorem C8_abort_no_assistant_reply_witness :
    ∃ suffix, (runTurn ([] : List Msg) "time?"
        ⟨some ⟨"assistant", none, some [⟨"call_1", "get_current_datetime", ""⟩]⟩,
          fun _ => .ok "res", none, .ok ""⟩).store = [] ++ suffix
      ∧ ∀ m ∈ suffix, dictGet m "role" = PyVal.vstr "assistant" → hasKey m "tool_calls" = true :=
  C8_abort_no_assistant_reply ([] : List Msg) "time?"
    ⟨some ⟨"assistant", none, some [⟨"call_1", "get_current_datetime", ""⟩]⟩,
      fun _ => .ok "res", none, .ok ""⟩ rfl

/-- C10: a tool-call request naming an unregistered function is
silently skipped — the dispatch loop appends no message for it — while
the serialized assistant tool-calls message has already been appended
and the second completion is still requested. -/
theorem C10_unknown_tool_silently_skipped (pre : List Msg) (prompt : String) (env : TurnEnv)
    (rm : RespMessage) (l : List ToolCallReq) (tc : ToolCallReq)
    (h1 : env.firstResp = some rm) (h2 : rm.tool_calls = some l) (h3 : tc ∈ l)
    (h4 : tc.function_name ∉ available_tools) :
    dispatchToolCall env tc = []
    ∧ serialize_message (.obj (respDump rm)) ∈ (runTurn pre prompt env).store
    ∧ (runTurn pre prompt env).secondCallMade = true := by
  obtain ⟨a, as, rfl⟩ : ∃ a as, l = a :: as := by
    cases l with
    | nil => simp at h3
    | cons a as => exact ⟨a, as, rfl⟩
  have hrun : runTurn pre prompt env = toolBranch (pre ++ [mkUserMsg prompt]) rm (a :: as) env := by
    simp [runTurn, h1, h2, toolCallsTruthy]
  obtain ⟨tail, htail⟩ := toolBranch_store_prefix (pre ++ [mkUserMsg prompt]) rm (a :: as) env
  refine ⟨by simp [dispatchToolCall, h4], ?_, ?_⟩
  · rw [hrun, htail]
    exact List.mem_append_left _
      (List.mem_append_left _ (List.mem_append_right _ (List.mem_singleton.mpr rfl)))
  · rw [hrun]
    exact toolBranch_secondCallMade _ _ _ _

/-- C10 witness: the silent-skip theorem on a concrete request for an
unregistered function name. -/
theorem C10_unknown_tool_silently_skipped_witness :
    dispatchToolCall ⟨some ⟨"assistant", none, some [⟨"call_9", "delete_files", ""⟩]⟩,
        fun _ => .ok "", none, .ok ""⟩ ⟨"call_9", "delete_files", ""⟩ = []
    ∧ serialize_message (.obj (respDump ⟨"assistant", none, some [⟨"call_9", "delete_files", ""⟩]⟩))
        ∈ (runTurn ([] : List Msg) "do it"
            ⟨some ⟨"assistant", none, some [⟨"call_9", "delete_files", ""⟩]⟩,
              fun _ => .ok "", none, .ok ""⟩).store
    ∧ (runTurn ([] : List Msg) "do it"
        ⟨some ⟨"assistant", none, some [⟨"call_9", "delete_files", ""⟩]⟩,
          fun _ => .ok "", none, .ok ""⟩).secondCallMade = true :=
  C10_unknown_tool_silently_skipped ([] : List Msg) "do it"
    ⟨some ⟨"assistant", none, some [⟨"call_9", "delete_files", ""⟩]⟩, fun _ => .ok "", none, .ok ""⟩
    ⟨"assistant", none, some [⟨"call_9", "delete_files", ""⟩]⟩
    [⟨"call_9", "delete_files", ""⟩] ⟨"call_9", "delete_files", ""⟩
    rfl rfl (List.mem_singleton.mpr rfl) (by decide)

/-- Characters `digitChar` produces for values below ten are digits with
the expected value, are not quotes, and escape to themselves. -/
theorem digitChar_ballProps : ∀ d < 10, (digitChar d).isDigit = true ∧ charVal (digitChar d) = d
    ∧ digitChar d ≠ '\x22' ∧ jsonEscapeChar (digitChar d) = [digitChar d] := by
  decide

/-- `String.mk` and `String.toList` are mutually inverse. -/
theorem toList_mk (l : List Char) : (String.mk l).toList = l := rfl

/-- Rebuilding a string from its character list gives it back. -/
theorem mk_toList (s : String) : String.mk s.toList = s := by
  cases s
  rfl

/-- Scanning a quote-free block followed by a quote yields the block and
the remainder. -/
theorem takeUntilQuote_append (l r : List Char) (h : ∀ c ∈ l, c ≠ '\x22') :
    takeUntilQuote (l ++ '\x22' :: r) = some (l, r) := by
  induction l with
  | nil => simp [takeUntilQuote]
  | cons c cs ih =>
      have hc : c ≠ '\x22' := h c (List.mem_cons_self c cs)
      simp [takeUntilQuote, hc, ih (fun x hx => h x (List.mem_cons_of_mem c hx))]

/-- Escaping is the identity on blocks of characters that escape to
themselves. -/
theorem jsonEscapeList_id (l : List Char) (h : ∀ c ∈ l, jsonEscapeChar c = [c]) :
    jsonEscapeList l = l := by
  induction l with
  | nil => rfl
  | cons c cs ih =>
      have hc := h c (List.mem_cons_self c cs)
      have ih' := ih (fun x hx => h x (List.mem_cons_of_mem c hx))
      simp only [jsonEscapeList, List.flatMap_cons] at ih' ⊢
      rw [hc, ih']
      rfl

/-- Every character of an isoformat output escapes to itself and is not
a quote. -/
theorem isoChars_elem (t : PyDateTime) (h : validPyDateTime t) :
    ∀ c ∈ isoChars t, jsonEscapeChar c = [c] ∧ c ≠ '\x22' := by
  obtain ⟨hy1, hy2, hm1, hm2, hd1, hd2, hh, hmi, hs2, hus⟩ := h
  intro c hc
  unfold isoChars at hc
  rcases List.mem_append.mp hc with hc | hc
  · simp only [List.mem_cons, List.not_mem_nil, or_false] at hc
    rcases hc with rfl | rfl | rfl | rfl | rfl | rfl | rfl | rfl | rfl | rfl | rfl | rfl | rfl
      | rfl | rfl | rfl | rfl | rfl | rfl
    all_goals first
      | decide
      | exact ⟨(digitChar_ballProps _ (by omega)).2.2.2, (digitChar_ballProps _ (by omega)).2.2.1⟩
  · by_cases hm0 : t.microsecond = 0
    · simp [hm0] at hc
    · simp only [hm0, if_false, ite_false, List.mem_cons, List.not_mem_nil, or_false] at hc
      rcases hc with rfl | rfl | rfl | rfl | rfl | rfl | rfl
      all_goals first
        | decide
        | exact ⟨(digitChar_ballProps _ (by omega)).2.2.2, (digitChar_ballProps _ (by omega)).2.2.1⟩
/-- The single-key dump parses back to its key and value when neither
needs escaping. -/
theorem parse_json_dumps_strObj (k v : String)
    (hk : jsonEscapeList k.toList = k.toList) (hknq : ∀ c ∈ k.toList, c ≠ '\x22')
    (hv : jsonEscapeList v.toList = v.toList) (hvnq : ∀ c ∈ v.toList, c ≠ '\x22') :
    parseJsonStrObj (json_dumps_strObj k v) = some (k, v) := by
  unfold parseJsonStrObj json_dumps_strObj
  rw [toList_mk, hk, hv]
  have hsplit : (('\x7b' :: '\x22' :: k.toList)
      ++ ('\x22' :: ':' :: ' ' :: '\x22' :: v.toList) ++ ['\x22', '\x7d'])
      = '\x7b' :: '\x22' :: (k.toList ++ '\x22'
        :: (':' :: ' ' :: '\x22' :: (v.toList ++ '\x22' :: ['\x7d']))) := by
    simp
  rw [hsplit]
  simp only [parseJsonObjChars,
    takeUntilQuote_append k.toList (':' :: ' ' :: '\x22' :: (v.toList ++ '\x22' :: ['\x7d'])) hknq,
    takeUntilQuote_append v.toList ['\x7d'] hvnq]
  simp [mk_toList]
/-- The recognizer on a nineteen-character string is the core check. -/
theorem isValidISO8601_core19 (y1 y2 y3 y4 mo1 mo2 d1 d2 hh1 hh2 mi1 mi2 ss1 ss2 : Char) :
    isValidISO8601 (String.mk [y1, y2, y3, y4, '-', mo1, mo2, '-', d1, d2, 'T',
      hh1, hh2, ':', mi1, mi2, ':', ss1, ss2])
      = isoCoreOk y1 y2 y3 y4 '-' mo1 mo2 '-' d1 d2 'T' hh1 hh2 ':' mi1 mi2 ':' ss1 ss2 := rfl

/-- The recognizer on a twenty-six-character string is the core check
plus the fractional part. -/
theorem isValidISO8601_core26 (y1 y2 y3 y4 mo1 mo2 d1 d2 hh1 hh2 mi1 mi2 ss1 ss2 f1 f2 f3 f4 f5 f6 : Char) :
    isValidISO8601 (String.mk [y1, y2, y3, y4, '-', mo1, mo2, '-', d1, d2, 'T',
      hh1, hh2, ':', mi1, mi2, ':', ss1, ss2, '.', f1, f2, f3, f4, f5, f6])
      = (isoCoreOk y1 y2 y3 y4 '-' mo1 mo2 '-' d1 d2 'T' hh1 hh2 ':' mi1 mi2 ':' ss1 ss2
        && ('.' == '.') && f1.isDigit && f2.isDigit && f3.isDigit && f4.isDigit
        && f5.isDigit && f6.isDigit) := rfl

/-- The isoformat of any in-range datetime passes the ISO-8601
recognizer. -/
theorem isoformat_valid (t : PyDateTime) (h : validPyDateTime t) :
    isValidISO8601 (isoformat t) = true := by
  obtain ⟨hy1, hy2, hm1, hm2, hd1, hd2, hh, hmi, hs2, hus⟩ := h
  have P : ∀ d : Nat, d < 10 → (digitChar d).isDigit = true ∧ charVal (digitChar d) = d :=
    fun d hd => ⟨(digitChar_ballProps d hd).1, (digitChar_ballProps d hd).2.1⟩
  have hcore : isoCoreOk (digitChar (t.year / 1000)) (digitChar (t.year / 100 % 10))
      (digitChar (t.year / 10 % 10)) (digitChar (t.year % 10)) '-'
      (digitChar (t.month / 10)) (digitChar (t.month % 10)) '-'
      (digitChar (t.day / 10)) (digitChar (t.day % 10)) 'T'
      (digitChar (t.hour / 10)) (digitChar (t.hour % 10)) ':'
      (digitChar (t.minute / 10)) (digitChar (t.minute % 10)) ':'
      (digitChar (t.second / 10)) (digitChar (t.second % 10)) = true := by
    unfold isoCoreOk
    rw [(P (t.year / 1000) (by omega)).1, (P (t.year / 100 % 10) (by omega)).1,
      (P (t.year / 10 % 10) (by omega)).1, (P (t.year % 10) (by omega)).1,
      (P (t.month / 10) (by omega)).1, (P (t.month % 10) (by omega)).1,
      (P (t.day / 10) (by omega)).1, (P (t.day % 10) (by omega)).1,
      (P (t.hour / 10) (by omega)).1, (P (t.hour % 10) (by omega)).1,
      (P (t.minute / 10) (by omega)).1, (P (t.minute % 10) (by omega)).1,
      (P (t.second / 10) (by omega)).1, (P (t.second % 10) (by omega)).1,
      (P (t.year / 1000) (by omega)).2, (P (t.year / 100 % 10) (by omega)).2,
      (P (t.year / 10 % 10) (by omega)).2, (P (t.year % 10) (by omega)).2,
      (P (t.month / 10) (by omega)).2, (P (t.month % 10) (by omega)).2,
      (P (t.day / 10) (by omega)).2, (P (t.day % 10) (by omega)).2,
      (P (t.hour / 10) (by omega)).2, (P (t.hour % 10) (by omega)).2,
      (P (t.minute / 10) (by omega)).2, (P (t.minute % 10) (by omega)).2,
      (P (t.second / 10) (by omega)).2, (P (t.second % 10) (by omega)).2]
    simp only [Bool.and_eq_true, decide_eq_true_eq, beq_self_eq_true, and_true, true_and]
    refine ⟨⟨⟨⟨⟨⟨⟨?_, ?_⟩, ?_⟩, ?_⟩, ?_⟩, ?_⟩, ?_⟩, ?_⟩ <;> omega
  by_cases hm0 : t.microsecond = 0
  · have hl : isoformat t = String.mk [digitChar (t.year / 1000), digitChar (t.year / 100 % 10),
        digitChar (t.year / 10 % 10), digitChar (t.year % 10), '-',
        digitChar (t.month / 10), digitChar (t.month % 10), '-',
        digitChar (t.day / 10), digitChar (t.day % 10), 'T',
        digitChar (t.hour / 10), digitChar (t.hour % 10), ':',
        digitChar (t.minute / 10), digitChar (t.minute % 10), ':',
        digitChar (t.second / 10), digitChar (t.second % 10)] := by
      simp [isoformat, isoChars, hm0]
    rw [hl, isValidISO8601_core19, hcore]
  · have hl : isoformat t = String.mk [digitChar (t.year / 1000), digitChar (t.year / 100 % 10),
        digitChar (t.year / 10 % 10), digitChar (t.year % 10), '-',
        digitChar (t.month / 10), digitChar (t.month % 10), '-',
        digitChar (t.day / 10), digitChar (t.day % 10), 'T',
        digitChar (t.hour / 10), digitChar (t.hour % 10), ':',
        digitChar (t.minute / 10), digitChar (t.minute % 10), ':',
        digitChar (t.second / 10), digitChar (t.second % 10), '.',
        digitChar (t.microsecond / 100000), digitChar (t.microsecond / 10000 % 10),
        digitChar (t.microsecond / 1000 % 10), digitChar (t.microsecond / 100 % 10),
        digitChar (t.microsecond / 10 % 10), digitChar (t.microsecond % 10)] := by
      simp [isoformat, isoChars, hm0]
    rw [hl, isValidISO8601_core26, hcore]
    simp only [Bool.true_and, Bool.and_eq_true, beq_self_eq_true, true_and]
    refine ⟨⟨⟨⟨⟨?_, ?_⟩, ?_⟩, ?_⟩, ?_⟩, ?_⟩ <;>
      exact (P _ (by omega)).1
/-- C7: for any clock reading, the tool's return value is a JSON string
that parses to an object with the single key `current_datetime` whose
value is a valid ISO-8601 timestamp, and a tool message built from it
carries exactly that string as its content. -/
theorem C7_get_current_datetime_shape (now : PyDateTime) (h : validPyDateTime now) :
    parseJsonStrObj (get_current_datetime now) = some ("current_datetime", isoformat now)
    ∧ isValidISO8601 (isoformat now) = true
    ∧ ∀ tc : ToolCallReq, dictGet (mkToolMsg tc (get_current_datetime now)) "content"
        = .vstr (get_current_datetime now) := by
  refine ⟨?_, isoformat_valid now h, fun tc => rfl⟩
  apply parse_json_dumps_strObj
  · rfl
  · decide
  · exact jsonEscapeList_id _ (fun c hc => (isoChars_elem now h c hc).1)
  · exact fun c hc => (isoChars_elem now h c hc).2

/-- C7 witness: the shape theorem at a concrete clock reading. -/
theorem C7_get_current_datetime_shape_witness :
    validPyDateTime ⟨2024, 5, 17, 9, 30, 5, 123456⟩
    ∧ (parseJsonStrObj (get_current_datetime ⟨2024, 5, 17, 9, 30, 5, 123456⟩)
        = some ("current_datetime", isoformat ⟨2024, 5, 17, 9, 30, 5, 123456⟩)
      ∧ isValidISO8601 (isoformat ⟨2024, 5, 17, 9, 30, 5, 123456⟩) = true
      ∧ ∀ tc : ToolCallReq,
          dictGet (mkToolMsg tc (get_current_datetime ⟨2024, 5, 17, 9, 30, 5, 123456⟩)) "content"
            = .vstr (get_current_datetime ⟨2024, 5, 17, 9, 30, 5, 123456⟩)) :=
  ⟨by decide, C7_get_current_datetime_shape ⟨2024, 5, 17, 9, 30, 5, 123456⟩ (by decide)⟩
